import Mathlib

/-!
Shallow embedding of `slurmformspawner/slurm.py` (class `SlurmAPI`).

External side effects are made explicit parameters:
* the result of `check_output(...)` is passed in as an `Except Unit _`
  value (`.error ()` models `CalledProcessError`; the JSON payload is
  passed already decoded into the record types below);
* `datetime.now()` is passed in as an integer `now` (epoch seconds;
  `datetime.fromtimestamp` is order-preserving, so timestamps are kept
  as integers);
* the `cachetools` TTL cache state is passed and returned explicitly.

Python sets are modelled as `Finset`, Python lists as `List`, and the
dynamically typed return value of `is_online` as the inductive `PyVal`.
-/

namespace SlurmSpawner

/-- Raw node record, as decoded from the JSON of
`scontrol --json show node`.  `cpus` and `real_memory` are accessed with
`node[...]` on well-formed listings; `specialized_memory`, `partitions`
and `active_features` are accessed with `node.get(key, default)`, so an
absent key behaves exactly like the default and is collapsed into it
(`none` / `[]`).  The `gres` field is accessed with `node['gres']`, which
raises `KeyError` when the key is absent, so absence must stay
distinguishable from a null value: `none` = key absent, `some none` =
JSON null, `some (some s)` = string `s`. -/
structure RawNode where
  cpus : Int
  real_memory : Int
  specialized_memory : Option Int
  gres : Option (Option String)
  partitions : List String
  active_features : List String
deriving DecidableEq, Repr

/-- The `output` dictionary built by `SlurmAPI.get_node_info`:
`{'cpu': [], 'mem': [], 'gres': [], 'partitions': [], 'features': set()}`.
`features` is a Python set of frozensets, hence a `Finset (Finset _)`. -/
structure NodeInfo where
  cpu : List Int
  mem : List Int
  gres : List String
  partitions : List String
  features : Finset (Finset String)
deriving DecidableEq

/-- The initial (all-empty) `output` dictionary of `get_node_info`. -/
def emptyNodeInfo : NodeInfo := ⟨[], [], [], [], ∅⟩

/-- Python truthiness of the value `node['gres']` (a string or null):
`None` and the empty string are falsy. -/
def gresTruthy : Option String → Bool
  | none => false
  | some s => !s.isEmpty

/-- The body of the `for node in nodes` loop of `get_node_info`, folded
over the node list.  Each node appends its cpu count, its
`real_memory - node.get('specialized_memory', 0)`, its gres descriptor
when truthy, extends the partition list, and adds
`frozenset(active_features)` when the feature list is non-empty.  A node
whose `gres` key is absent makes `node['gres']` raise `KeyError`, which
propagates out of the loop. -/
def parseNodes : List RawNode → Except String NodeInfo
  | [] => .ok emptyNodeInfo
  | n :: ns =>
    match n.gres with
    | none => .error "KeyError: gres"
    | some g =>
      match parseNodes ns with
      | .error e => .error e
      | .ok rest =>
        .ok { cpu := n.cpus :: rest.cpu
              mem := (n.real_memory - n.specialized_memory.getD 0) :: rest.mem
              gres := if gresTruthy g then g.getD "" :: rest.gres else rest.gres
              partitions := n.partitions ++ rest.partitions
              features :=
                if n.active_features.isEmpty then rest.features
                else insert n.active_features.toFinset rest.features }

/-- `SlurmAPI.get_node_info`: on `CalledProcessError` return the
all-empty `output`; otherwise parse the decoded node list. -/
def get_node_info (result : Except Unit (List RawNode)) : Except String NodeInfo :=
  match result with
  | .error _ => .ok emptyNodeInfo
  | .ok nodes => parseNodes nodes

/-- A dynamically typed Python value, as needed to state what
`is_online` returns: `cpu_list and mem_list` evaluates to one of the two
lists, never to a `bool`. -/
inductive PyVal where
  | vBool : Bool → PyVal
  | vList : List Int → PyVal
deriving DecidableEq, Repr

/-- Python truthiness of a `PyVal`: a list is truthy iff non-empty. -/
def pyTruthy : PyVal → Bool
  | .vBool b => b
  | .vList l => !l.isEmpty

/-- Python `a and b`: returns `b` if `a` is truthy, else `a`. -/
def pyAnd (a b : PyVal) : PyVal := if pyTruthy a then b else a

/-- `SlurmAPI.is_online`, applied to the (cached) node info:
`get_node_info()['cpu'] and get_node_info()['mem']`. -/
def is_online (info : NodeInfo) : PyVal :=
  pyAnd (.vList info.cpu) (.vList info.mem)

/-- `SlurmAPI.get_cpus`: `sorted(set(info['cpu']))`. -/
def get_cpus (info : NodeInfo) : List Int :=
  info.cpu.toFinset.sort (· ≤ ·)

/-- `SlurmAPI.get_mems`: `sorted(set(info['mem']))`. -/
def get_mems (info : NodeInfo) : List Int :=
  info.mem.toFinset.sort (· ≤ ·)

/-- `SlurmAPI.get_gres`:
`['gpu:0'] + sorted(set(info['gres']) - set(['gpu:0']))`. -/
def get_gres (info : NodeInfo) : List String :=
  "gpu:0" :: (info.gres.toFinset \ {"gpu:0"}).sort (· ≤ ·)

/-- `SlurmAPI.get_partitions`: `sorted(set(info['partitions']))`. -/
def get_partitions (info : NodeInfo) : List String :=
  info.partitions.toFinset.sort (· ≤ ·)

/-- `SlurmAPI.get_features`: flatten the set of feature frozensets into
one set of features and sort it. -/
def get_features (info : NodeInfo) : List String :=
  (info.features.biUnion id).sort (· ≤ ·)

/-- Python `str.splitlines`, restricted to the `\n` line boundary (the
only one occurring in the modelled command output): split into lines,
where a terminating newline does not produce a trailing empty line.
`splitlinesAux cs acc` scans `cs` with `acc` the reversed characters of
the current (unfinished) line. -/
def splitlinesAux : List Char → List Char → List String
  | [], acc => if acc.isEmpty then [] else [String.mk acc.reverse]
  | c :: rest, acc =>
    if c = '\n' then String.mk acc.reverse :: splitlinesAux rest []
    else splitlinesAux rest (c :: acc)

/-- Python `str.splitlines` on a `String`. -/
def splitlines (s : String) : List String := splitlinesAux s.data []

/-- `SlurmAPI.get_accounts`: run the `sacctmgr` query for `username`;
on `CalledProcessError` return `[]`, else `string.splitlines()`.  The
username only selects the external output, so the function takes the
query result directly. -/
def get_accounts (result : Except Unit String) : List String :=
  match result with
  | .error _ => []
  | .ok string => splitlines string

/-- Raw reservation record, as decoded from the JSON of
`scontrol show res --json`: flag list, comma-joined user and account
strings, and epoch start/end times (`res['start_time']['number']`). -/
structure RawRes where
  name : String
  flags : List String
  users : String
  accounts : String
  start_time : Int
  end_time : Int
deriving DecidableEq, Repr

/-- The `current_res` dictionary built by `get_reservations` for one
raw reservation: users and accounts split on commas into Python sets,
epoch times converted to timestamps (kept as integers, since
`datetime.fromtimestamp` preserves order and equality). -/
structure Reservation where
  reservationName : String
  users : Finset String
  accounts : Finset String
  startTime : Int
  endTime : Int
deriving DecidableEq

/-- The body of the `for res in reservations` loop of
`get_reservations` for one record. -/
def parseRes (r : RawRes) : Reservation :=
  { reservationName := r.name
    users := (r.users.splitOn ",").toFinset
    accounts := (r.accounts.splitOn ",").toFinset
    startTime := r.start_time
    endTime := r.end_time }

/-- The `for res in reservations` loop of `get_reservations`: skip any
record whose flag set contains `'MAINT'` (`continue`), parse the rest in
order. -/
def filterReservations : List RawRes → List Reservation
  | [] => []
  | r :: rs =>
    if "MAINT" ∈ r.flags then filterReservations rs
    else parseRes r :: filterReservations rs

/-- `SlurmAPI.get_reservations`: on `CalledProcessError` the raw list is
`[]`; otherwise the decoded reservation list; then the filtering loop. -/
def get_reservations (result : Except Unit (List RawRes)) : List Reservation :=
  let reservations := match result with
    | .error _ => []
    | .ok l => l
  filterReservations reservations

/-- `SlurmAPI.get_active_reservations`: early-return `[]` when the
cached list is empty; otherwise keep the reservations whose window
contains `now` and that mention the user or intersect
`set(accounts)`. -/
def get_active_reservations (result : Except Unit (List RawRes))
    (username : String) (accounts : List String) (now : Int) : List Reservation :=
  let reservations := get_reservations result
  if reservations.isEmpty then []
  else
    let accountsSet := accounts.toFinset
    reservations.filter fun res =>
      decide (res.startTime ≤ now) && decide (now ≤ res.endTime) &&
        (decide (username ∈ res.users) || decide (accountsSet ∩ res.accounts).Nonempty)

/-- One entry of a `cachetools.TTLCache`: the cached value and its
insertion time. -/
structure CacheEntry (α : Type) where
  value : α
  time : Int
deriving DecidableEq

/-- Modelled from the spec: the cache machinery (`cachetools.TTLCache`
with `@cachedmethod`, wrapping `get_node_info`, `get_accounts` and
`get_reservations`) is third-party library code not present under the
repository source.  Per the spec, each cache maps a key to
`(value, insertion time)`; an entry is valid while
`now − insertion time < TTL`; a live entry is returned without invoking
the compute function, otherwise the compute function runs and its result
is stored with the current timestamp.  `cachedCall` performs one such
cache-checked call and returns the value, the new cache state, and
whether the underlying query was invoked.  (Capacity eviction only
happens on insertion, so it cannot intervene between the two calls the
claims quantify over and is not modelled.) -/
def cachedCall {κ α : Type} [DecidableEq κ] (ttl : Int)
    (cache : κ → Option (CacheEntry α)) (k : κ) (now : Int)
    (compute : κ → α) : α × (κ → Option (CacheEntry α)) × Bool :=
  match cache k with
  | some e =>
    if now - e.time < ttl then (e.value, cache, false)
    else
      let v := compute k
      (v, fun j => if j = k then some ⟨v, now⟩ else cache j, true)
  | none =>
    let v := compute k
    (v, fun j => if j = k then some ⟨v, now⟩ else cache j, true)

/-- Claim C1: when the external node-inventory command fails,
`get_node_info` returns (rather than raises) a node-info value with all
sequences/sets empty; consequently `is_online` evaluates false in
boolean context and `get_cpus` is the empty list. -/
theorem node_query_failure_degrades :
    get_node_info (.error ()) = .ok emptyNodeInfo ∧
    pyTruthy (is_online emptyNodeInfo) = false ∧
    get_cpus emptyNodeInfo = [] :=
  ⟨rfl, rfl, by simp [get_cpus, emptyNodeInfo]⟩

/-- Claim C4: the derived views `get_cpus`, `get_mems`,
`get_partitions` and `get_features` are sorted ascending and contain no
duplicates, for every node-info value (hence for every input multiset
of raw node data). -/
theorem derived_views_sorted_nodup (info : NodeInfo) :
    ((get_cpus info).Sorted (· ≤ ·) ∧ (get_cpus info).Nodup) ∧
    ((get_mems info).Sorted (· ≤ ·) ∧ (get_mems info).Nodup) ∧
    ((get_partitions info).Sorted (· ≤ ·) ∧ (get_partitions info).Nodup) ∧
    ((get_features info).Sorted (· ≤ ·) ∧ (get_features info).Nodup) :=
  ⟨⟨Finset.sort_sorted _ _, Finset.sort_nodup _ _⟩,
   ⟨Finset.sort_sorted _ _, Finset.sort_nodup _ _⟩,
   ⟨Finset.sort_sorted _ _, Finset.sort_nodup _ _⟩,
   ⟨Finset.sort_sorted _ _, Finset.sort_nodup _ _⟩⟩

/-- Claim C5: `get_gres` always starts with the sentinel `"gpu:0"`, the
sentinel occurs exactly once, and the remaining elements are the sorted,
deduplicated, non-sentinel generic-resource strings. -/
theorem gres_sentinel_spec (info : NodeInfo) :
    (get_gres info).head? = some "gpu:0" ∧
    (get_gres info).count "gpu:0" = 1 ∧
    (get_gres info).tail.Sorted (· ≤ ·) ∧
    (get_gres info).tail.Nodup ∧
    (∀ s, s ∈ (get_gres info).tail ↔ s ∈ info.gres ∧ s ≠ "gpu:0") := by
  refine ⟨rfl, ?_, Finset.sort_sorted _ _, Finset.sort_nodup _ _, ?_⟩
  · have hnot : "gpu:0" ∉ (info.gres.toFinset \ {"gpu:0"}).sort (· ≤ ·) := by
      simp [Finset.mem_sort]
    simp [get_gres, List.count_cons, List.count_eq_zero.mpr hnot]
  · intro s
    simp [get_gres, Finset.mem_sort, Finset.mem_sdiff, List.mem_toFinset]

/-- Counterexample to claim C9: `is_online` does not return a boolean.
On a node info with one 4-cpu node of memory 8, `cpu_list and mem_list`
evaluates to the memory list `[8]` — a Python list, not `True` or
`False`. -/
theorem is_online_returns_list :
    is_online ⟨[4], [8], [], [], ∅⟩ = .vList [8] ∧
    is_online ⟨[4], [8], [], [], ∅⟩ ≠ .vBool true ∧
    is_online ⟨[4], [8], [], [], ∅⟩ ≠ .vBool false := by
  refine ⟨rfl, ?_, ?_⟩ <;> intro h <;> cases h

/-- Claim C9 amended: `is_online` returns one of the two raw lists (the
Python `and` of `cpu` and `mem`), never a boolean; the returned value is
truthy precisely when both the raw cpu sequence and the raw mem sequence
are non-empty. -/
theorem is_online_truthiness (info : NodeInfo) :
    (∃ l, is_online info = .vList l) ∧
    (pyTruthy (is_online info) = true ↔ info.cpu ≠ [] ∧ info.mem ≠ []) := by
  constructor
  · unfold is_online pyAnd
    by_cases h : pyTruthy (.vList info.cpu) <;> simp [h]
  · unfold is_online pyAnd pyTruthy
    by_cases h : info.cpu.isEmpty <;>
      simp_all [List.isEmpty_iff]

/-- A `Finset` sorted by `≤` equals any sorted duplicate-free list with
the same elements. -/
lemma finset_sort_eq_of_sorted {α : Type} [LinearOrder α] [DecidableEq α]
    (s : Finset α) (l : List α) (hs : l.Sorted (· ≤ ·)) (hn : l.Nodup)
    (hm : l.toFinset = s) : s.sort (· ≤ ·) = l :=
  List.eq_of_perm_of_sorted
    (List.perm_of_nodup_nodup_toFinset_eq (Finset.sort_nodup _ _) hn
      (by rw [Finset.sort_toFinset, hm]))
    (Finset.sort_sorted _ _) hs

/-- Claim C6: on a successfully parsed node listing every node
contributes one `mem` entry equal to `real_memory` minus
`specialized_memory` (0 when absent), in listing order; and on the
spec's example listing the derived views are
`get_cpus = [4]`, `get_mems = [14000, 32000]`. -/
theorem mem_sizes_per_node :
    (∀ nodes info, parseNodes nodes = .ok info →
      info.mem = nodes.map fun n => n.real_memory - n.specialized_memory.getD 0) ∧
    (∃ info,
      parseNodes [⟨4, 16000, some 2000, some none, [], []⟩,
                  ⟨4, 32000, none, some none, [], []⟩] = .ok info ∧
      get_cpus info = [4] ∧ get_mems info = [14000, 32000]) := by
  constructor
  · intro nodes
    induction nodes with
    | nil =>
      intro info h
      simp only [parseNodes, Except.ok.injEq] at h
      subst h
      rfl
    | cons n ns ih =>
      intro info h
      simp only [parseNodes] at h
      cases hg : n.gres with
      | none => rw [hg] at h; cases h
      | some g =>
        rw [hg] at h
        cases hr : parseNodes ns with
        | error e => rw [hr] at h; cases h
        | ok rest =>
          rw [hr] at h
          simp only [Except.ok.injEq] at h
          subst h
          simp [ih rest hr]
  · refine ⟨⟨[4, 4], [14000, 32000], [], [], ∅⟩, rfl, ?_, ?_⟩
    · exact finset_sort_eq_of_sorted _ _ (by simp) (by simp) (by decide)
    · exact finset_sort_eq_of_sorted _ _ (by simp) (by decide) (by decide)

/-- Witness for claim C6: the per-node memory formula instantiated on
the spec's example listing. -/
theorem mem_sizes_per_node_witness :
    (⟨[4, 4], [14000, 32000], [], [], ∅⟩ : NodeInfo).mem
      = [(⟨4, 16000, some 2000, some none, [], []⟩ : RawNode),
         ⟨4, 32000, none, some none, [], []⟩].map
          (fun n => n.real_memory - n.specialized_memory.getD 0) :=
  mem_sizes_per_node.1 _ _ rfl

/-- Scanning a newline-free chunk followed by a newline emits exactly
the pending characters plus that chunk as one line. -/
lemma splitlinesAux_chunk (l : List Char) (hl : '\n' ∉ l) (rest acc : List Char) :
    splitlinesAux (l ++ '\n' :: rest) acc
      = String.mk (acc.reverse ++ l) :: splitlinesAux rest [] := by
  induction l generalizing acc with
  | nil => simp [splitlinesAux]
  | cons c cs ih =>
    have hc : ¬c = '\n' := fun h => hl (h ▸ List.mem_cons_self c cs)
    have hcs : '\n' ∉ cs := fun h => hl (List.mem_cons_of_mem c h)
    rw [List.cons_append]
    simp only [splitlinesAux, if_neg hc]
    rw [ih hcs (c :: acc)]
    simp

/-- The line-joined form of an account list: every account followed by
one newline, concatenated. -/
def joinLines (accts : List String) : String :=
  String.mk (accts.foldr (fun a r => a.data ++ '\n' :: r) [])

/-- Claim C7: `get_accounts` returns `[]` when the external command
fails; on success it splits the output into one account name per line,
with no trailing empty entry from the final newline. -/
theorem accounts_split_per_line (accts : List String)
    (h : ∀ a ∈ accts, '\n' ∉ a.data) :
    get_accounts (.error ()) = [] ∧
    get_accounts (.ok (joinLines accts)) = accts := by
  refine ⟨rfl, ?_⟩
  show splitlinesAux (accts.foldr (fun a r => a.data ++ '\n' :: r) []) [] = accts
  induction accts with
  | nil => rfl
  | cons a as ih =>
    have ha : '\n' ∉ a.data := h a (List.mem_cons_self a as)
    have has : ∀ b ∈ as, '\n' ∉ b.data := fun b hb => h b (List.mem_cons_of_mem a hb)
    simp only [List.foldr_cons, splitlinesAux_chunk a.data ha _ [], List.reverse_nil,
      List.nil_append, ih has, List.cons.injEq, and_true]

/-- Witness for claim C7: two accounts joined by newlines parse back to
the same two accounts, and failure yields the empty list. -/
theorem accounts_split_per_line_witness :
    get_accounts (.error ()) = [] ∧
    get_accounts (.ok (joinLines ["acct1", "acct2"])) = ["acct1", "acct2"] :=
  accounts_split_per_line ["acct1", "acct2"] (by decide)

/-- The early `[]` return of `get_active_reservations` coincides with
filtering, so the function is the filter of the fetched list by the
activity predicate. -/
lemma get_active_eq_filter (result : Except Unit (List RawRes)) (u : String)
    (accts : List String) (now : Int) :
    get_active_reservations result u accts now
      = (get_reservations result).filter fun res =>
          decide (res.startTime ≤ now) && decide (now ≤ res.endTime) &&
            (decide (u ∈ res.users) || decide (accts.toFinset ∩ res.accounts).Nonempty) := by
  unfold get_active_reservations
  cases h : (get_reservations result).isEmpty
  · simp [h]
  · simp [List.isEmpty_iff.mp h]

/-- Dropping the `'MAINT'`-flagged raw records before the parsing loop
changes nothing: the loop already skips them. -/
lemma filterReservations_drop_maint (raws : List RawRes) :
    filterReservations (raws.filter fun r => !decide ("MAINT" ∈ r.flags))
      = filterReservations raws := by
  induction raws with
  | nil => rfl
  | cons r rs ih =>
    by_cases hm : "MAINT" ∈ r.flags
    · simp [List.filter_cons, hm, filterReservations, ih]
    · simp [List.filter_cons, hm, filterReservations, ih]

/-- Claim C2: a reservation of the fetched list is returned by
`get_active_reservations` iff its window contains `now` (boundaries
inclusive) and the user is in its Users or the accounts intersect its
Accounts; the output is a sublist of the fetched list (order
preserved); and raw records flagged `'MAINT'` never contribute:
deleting them from the raw list leaves the output unchanged. -/
theorem active_reservations_spec (result : Except Unit (List RawRes)) (u : String)
    (accts : List String) (now : Int) :
    (∀ res, res ∈ get_active_reservations result u accts now ↔
        res ∈ get_reservations result ∧ (res.startTime ≤ now ∧ now ≤ res.endTime) ∧
          (u ∈ res.users ∨ (accts.toFinset ∩ res.accounts).Nonempty)) ∧
    List.Sublist (get_active_reservations result u accts now) (get_reservations result) ∧
    ∀ raws, result = .ok raws →
      get_active_reservations (.ok (raws.filter fun r => !decide ("MAINT" ∈ r.flags)))
          u accts now
        = get_active_reservations result u accts now := by
  refine ⟨?_, ?_, ?_⟩
  · intro res
    rw [get_active_eq_filter]
    simp [List.mem_filter, and_assoc]
  · rw [get_active_eq_filter]
    exact List.filter_sublist _
  · intro raws hr
    subst hr
    rw [get_active_eq_filter, get_active_eq_filter]
    show (filterReservations _).filter _ = (filterReservations _).filter _
    rw [filterReservations_drop_maint]

/-- Witness for claim C2: deleting a `'MAINT'`-flagged record from a
concrete raw list leaves `get_active_reservations` unchanged. -/
theorem active_reservations_spec_witness :
    get_active_reservations
        (.ok ([(⟨"m", ["MAINT"], "alice", "teamA", 0, 10⟩ : RawRes),
               ⟨"r", [], "alice,bob", "teamA,teamB", 0, 10⟩].filter
            fun r => !decide ("MAINT" ∈ r.flags)))
        "alice" [] 5
      = get_active_reservations
          (.ok [⟨"m", ["MAINT"], "alice", "teamA", 0, 10⟩,
                ⟨"r", [], "alice,bob", "teamA,teamB", 0, 10⟩])
          "alice" [] 5 :=
  (active_reservations_spec _ "alice" [] 5).2.2 _ rfl

/-- Claim C10: `get_active_reservations` depends on the accounts
argument only through its set of distinct elements. -/
theorem active_reservations_account_set_extensional
    (result : Except Unit (List RawRes)) (u : String) (now : Int)
    (a1 a2 : List String) (h : a1.toFinset = a2.toFinset) :
    get_active_reservations result u a1 now
      = get_active_reservations result u a2 now := by
  unfold get_active_reservations
  rw [h]

/-- Witness for claim C10: reordering and duplicating the account list
does not change the result. -/
theorem active_reservations_account_set_extensional_witness :
    get_active_reservations (.ok [⟨"r", [], "alice", "teamA,teamB", 0, 10⟩])
        "bob" ["teamB", "teamA"] 5
      = get_active_reservations (.ok [⟨"r", [], "alice", "teamA,teamB", 0, 10⟩])
          "bob" ["teamA", "teamB", "teamA"] 5 :=
  active_reservations_account_set_extensional _ "bob" 5 _ _ (by decide)

/-- Counterexample to claim C8: a node whose generic-resource key is
absent does not make `get_node_info` complete without error — the
`node['gres']` lookup raises `KeyError`, which propagates. -/
theorem absent_gres_key_raises :
    parseNodes [⟨4, 16000, none, none, [], []⟩] = .error "KeyError: gres" :=
  rfl

/-- Claim C8 amended: a node whose generic-resource field is present
but null contributes nothing to the gres sequence, and a node with
empty active-features contributes nothing to the feature sets; on such
nodes the parse completes without error (an absent gres key, by
contrast, raises `KeyError`). -/
theorem null_gres_and_empty_features_skipped (n : RawNode) (ns : List RawNode)
    (rest : NodeInfo) (h : parseNodes ns = .ok rest) (hg : n.gres = some none)
    (hf : n.active_features = []) :
    parseNodes (n :: ns)
      = .ok { cpu := n.cpus :: rest.cpu
              mem := (n.real_memory - n.specialized_memory.getD 0) :: rest.mem
              gres := rest.gres
              partitions := n.partitions ++ rest.partitions
              features := rest.features } := by
  simp [parseNodes, hg, h, hf, gresTruthy]

/-- Witness for claim C8 amended: a single node with a null gres field
and no active features parses to its cpu and mem contributions only. -/
theorem null_gres_and_empty_features_skipped_witness :
    parseNodes [⟨4, 16000, none, some none, [], []⟩]
      = .ok ⟨[4], [16000], [], [], ∅⟩ :=
  null_gres_and_empty_features_skipped _ [] emptyNodeInfo rfl rfl rfl

/-- Claim C3: a cache-checked call made while the entry left by a
previous cache-checked call is still live (its age at the second call
is below the TTL, i.e. no intervening expiry) does not invoke the
underlying query again and returns the same value. -/
theorem second_call_within_ttl_is_cache_hit {κ α : Type} [DecidableEq κ]
    (ttl : Int) (cache : κ → Option (CacheEntry α)) (k : κ) (t1 t2 : Int)
    (compute : κ → α)
    (hlive : ∀ e, (cachedCall ttl cache k t1 compute).2.1 k = some e →
      t2 - e.time < ttl) :
    (cachedCall ttl (cachedCall ttl cache k t1 compute).2.1 k t2 compute).2.2 = false ∧
    (cachedCall ttl (cachedCall ttl cache k t1 compute).2.1 k t2 compute).1
      = (cachedCall ttl cache k t1 compute).1 := by
  cases h : cache k with
  | none =>
    have hs : (cachedCall ttl cache k t1 compute).2.1 k
        = some ⟨compute k, t1⟩ := by
      simp [cachedCall, h]
    have ht := hlive _ hs
    simp [cachedCall, h, hs, ht] at ht ⊢
  | some e =>
    by_cases hv : t1 - e.time < ttl
    · have hs : (cachedCall ttl cache k t1 compute).2.1 k = some e := by
        simp [cachedCall, h, hv]
      have ht := hlive _ hs
      simp [cachedCall, h, hv, ht]
    · have hs : (cachedCall ttl cache k t1 compute).2.1 k
          = some ⟨compute k, t1⟩ := by
        simp [cachedCall, h, hv]
      have ht := hlive _ hs
      simp [cachedCall, h, hv, hs, ht] at ht ⊢

/-- Witness for claim C3: first call at time 0 on an empty cache, second
call at time 100 with TTL 300 — the second call is a hit and returns the
first value. -/
theorem second_call_within_ttl_is_cache_hit_witness :
    (cachedCall 300 (cachedCall 300 (fun _ : Nat => (none : Option (CacheEntry Int)))
        0 0 (fun _ => 7)).2.1 0 100 (fun _ => 7)).2.2 = false ∧
    (cachedCall 300 (cachedCall 300 (fun _ : Nat => (none : Option (CacheEntry Int)))
        0 0 (fun _ => 7)).2.1 0 100 (fun _ => 7)).1
      = (cachedCall 300 (fun _ : Nat => (none : Option (CacheEntry Int)))
          0 0 (fun _ => 7)).1 :=
  second_call_within_ttl_is_cache_hit 300 _ 0 0 100 _ (by
    intro e he
    simp [cachedCall] at he
    simp [← he])

end SlurmSpawner
